import Mathlib

/-!
Shallow embedding of `rclcpp/include/rclcpp/node_impl.hpp`: the node-local
callback-group registry, the entity binder, the per-kind entity counters and
the hierarchical parameter store, together with proofs of the specified
properties of those operations.
-/

namespace Rclcpp

/-! ### The std::map key order

`Node::parameters_` is a `std::map<std::string, ParameterVariant>`, ordered by
`std::less<std::string>`, i.e. lexicographic byte comparison.  Keys in this
fragment are ASCII, so byte order and code-point order coincide; the map is
modelled as an association list kept sorted by this order, which also fixes
the iteration order the C++ loops observe. -/

/-- Lexicographic comparison of character lists by code point
(`std::less<std::string>` on the underlying character sequences). -/
def charListLt : List Char → List Char → Bool
  | _, [] => false
  | [], _ :: _ => true
  | a :: as, b :: bs =>
    if a.toNat < b.toNat then true
    else if b.toNat < a.toNat then false
    else charListLt as bs

/-- `std::less<std::string>` on whole strings. -/
def strLt (a b : String) : Bool := charListLt a.data b.data

/-! ### Parameter data model (`rcl_interfaces` / `rclcpp::parameter`) -/

/-- `rcl_interfaces::ParameterType` codes (the `uint8_t` tags); the numeric
payload kinds not exercised by this fragment's store logic are elided. -/
inductive ParameterType where
  | PARAMETER_NOT_SET
  | PARAMETER_BOOL
  | PARAMETER_INTEGER
  | PARAMETER_STRING
deriving DecidableEq, Repr

/-- The tagged union inside a `ParameterVariant`. -/
inductive ParamValue where
  | notSet
  | boolVal (b : Bool)
  | intVal (i : Int)
  | strVal (s : String)
deriving DecidableEq, Repr

/-- `ParameterVariant::get_type()`: the tag of the stored union. -/
def ParamValue.get_type : ParamValue → ParameterType
  | .notSet => .PARAMETER_NOT_SET
  | .boolVal _ => .PARAMETER_BOOL
  | .intVal _ => .PARAMETER_INTEGER
  | .strVal _ => .PARAMETER_STRING

/-- `rclcpp::parameter::ParameterVariant`: a named, typed value.
`ParameterVariant::from_parameter` is the identity in this model. -/
structure ParameterVariant where
  name : String
  value : ParamValue
deriving DecidableEq, Repr

def ParameterVariant.get_type (p : ParameterVariant) : ParameterType :=
  p.value.get_type

/-- The store: `std::map<std::string, ParameterVariant>` as a key-sorted
association list (iteration = list order). -/
abbrev Map := List (String × ParameterVariant)

/-- `map.find(k)` (first entry with the key wins, as in any map). -/
def storeFind : Map → String → Option ParameterVariant
  | [], _ => none
  | kv :: rest, k => if kv.1 = k then some kv.2 else storeFind rest k

/-- `map[k] = v`: sorted insert that overwrites an existing entry
(`std::map::operator[]` followed by assignment). -/
def storeAssign : Map → String → ParameterVariant → Map
  | [], k, v => [(k, v)]
  | (k', v') :: rest, k, v =>
    if strLt k k' then (k, v) :: (k', v') :: rest
    else if k = k' then (k, v) :: rest
    else (k', v') :: storeAssign rest k v

/-- `map.insert({k, v})`: sorted insert that KEEPS an existing entry
(`std::map::insert` does not overwrite). -/
def storeInsert : Map → String → ParameterVariant → Map
  | [], k, v => [(k, v)]
  | (k', v') :: rest, k, v =>
    if strLt k k' then (k, v) :: (k', v') :: rest
    else if k = k' then (k', v') :: rest
    else (k', v') :: storeInsert rest k v

/-- The well-formedness invariant every reachable `std::map` state satisfies:
keys strictly increasing in `std::less<std::string>` order. -/
def SortedMap (m : Map) : Prop :=
  List.Pairwise (fun a b : String × ParameterVariant => strLt a.1 b.1 = true) m

/-- `rcl_interfaces::SetParametersResult`. -/
structure SetParametersResult where
  successful : Bool
deriving DecidableEq, Repr

/-- `Node::set_parameters`: for each input parameter, in input order,
`parameters_[p.name] = ParameterVariant::from_parameter(p)` and one
unconditionally successful result is pushed. -/
def set_parameters (m : Map) (parameters : List ParameterVariant) :
    Map × List SetParametersResult :=
  parameters.foldl
    (fun acc p => (storeAssign acc.1 p.name p, acc.2 ++ [⟨true⟩])) (m, [])

/-- Apply a batch of `parameters_[p.name] = p` assignments in order. -/
def applyAssigns (m : Map) (parameters : List ParameterVariant) : Map :=
  parameters.foldl (fun acc p => storeAssign acc p.name p) m

/-- The staging map of `Node::set_parameters_atomically`: `tmp_map[p.name] = …`
over the batch in input order (later duplicates overwrite earlier ones). -/
def buildStaging (parameters : List ParameterVariant) : Map :=
  applyAssigns [] parameters

/-- Left-biased choice on lookup results (`some` from the first argument
wins), used to state merge behaviour. -/
def optOr (a b : Option ParameterVariant) : Option ParameterVariant :=
  match a with
  | some v => some v
  | none => b

/-- `Node::set_parameters_atomically`: build the staging map from the batch,
`tmp_map.insert(parameters_.begin(), parameters_.end())` (range insert never
overwrites staged entries), then `std::swap(tmp_map, parameters_)`; the single
returned result is unconditionally successful. -/
def set_parameters_atomically (m : Map) (parameters : List ParameterVariant) :
    Map × SetParametersResult :=
  let tmp_map := buildStaging parameters
  let merged := m.foldl (fun acc kv => storeInsert acc kv.1 kv.2) tmp_map
  (merged, ⟨true⟩)

/-- `Node::get_parameter_types`: iterates the STORE (`for (auto & kv :
parameters_)`), pushing the stored type when some requested name equals the
stored key and `PARAMETER_NOT_SET` otherwise — one entry per stored key, not
per requested name. -/
def get_parameter_types (m : Map) (names : List String) : List ParameterType :=
  m.foldl
    (fun results kv =>
      if names.any (fun name => name == kv.1) then
        results ++ [kv.2.get_type]
      else
        results ++ [ParameterType.PARAMETER_NOT_SET]) []

/-- The per-key match test of `Node::list_parameters`:
`kv.first.find(prefix + ".") == 0` checks that the key starts with the
requested name followed by the separator, and the dot count of
`kv.first.substr(prefix.length())` — the suffix after the requested name,
which still carries the leading separator — must be strictly below `depth`. -/
def matchesDepth (key : String) (pre : String) (depth : Nat) : Bool :=
  if List.isPrefixOf (pre.data ++ ['.']) key.data then
    decide ((key.data.drop pre.data.length).count '.' < depth)
  else false

/-- `kv.first.substr(0, kv.first.find_last_of('.'))`: everything before the
last dot; with no dot present, `find_last_of` yields `npos` and `substr`
returns the whole string. -/
def beforeLastDot (s : String) : String :=
  if s.data.contains '.' then
    String.mk ((s.data.reverse.dropWhile (fun c => c != '.')).tail.reverse)
  else s

/-- `rcl_interfaces::ListParametersResult`. -/
structure ListParametersResult where
  parameter_names : List String
  parameter_prefixes : List String
deriving DecidableEq, Repr

/-- `Node::list_parameters`: iterate the store; for each key matching some
requested name at the given depth, emit one fresh `ListParametersResult`
holding that key and (deduplicated within the fresh record) its own namespace
part before its last dot. -/
def list_parameters (m : Map) (prefixes : List String) (depth : Nat) :
    List ListParametersResult :=
  m.foldl
    (fun results kv =>
      if prefixes.any (fun pre => matchesDepth kv.1 pre depth) then
        let result0 : ListParametersResult := ⟨[kv.1], []⟩
        let pfx := beforeLastDot kv.1
        let result :=
          if result0.parameter_prefixes.contains pfx then result0
          else { result0 with
                 parameter_prefixes := result0.parameter_prefixes ++ [pfx] }
        results ++ [result]
      else results) []

/-! ### Callback groups, the registry, the entity binder and the node

Group objects are shared, mutable and weakly held by the node
(`std::weak_ptr`), so they live in an explicit heap keyed by an allocation
identity (the object address); `std::weak_ptr::lock` succeeding is modelled by
a liveness predicate over identities, supplied by the environment (it encodes
which strong references callers still hold). -/

/-- `rclcpp::callback_group::CallbackGroupType`. -/
inductive CallbackGroupType where
  | MutuallyExclusive
  | Reentrant
deriving DecidableEq, Repr

/-- The mutable state of a `CallbackGroup`: its declared type and the
per-kind lists of references to bound entities (entities are denoted by
opaque identities). -/
structure GroupData where
  group_type : CallbackGroupType
  subscriptions : List Nat
  timers : List Nat
  clients : List Nat
  services : List Nat
deriving DecidableEq, Repr

/-- `CallbackGroup::add_subscription`. -/
def GroupData.add_subscription (gd : GroupData) (eid : Nat) : GroupData :=
  { gd with subscriptions := gd.subscriptions ++ [eid] }

/-- `CallbackGroup::add_timer`. -/
def GroupData.add_timer (gd : GroupData) (eid : Nat) : GroupData :=
  { gd with timers := gd.timers ++ [eid] }

/-- `CallbackGroup::add_client`. -/
def GroupData.add_client (gd : GroupData) (eid : Nat) : GroupData :=
  { gd with clients := gd.clients ++ [eid] }

/-- `CallbackGroup::add_service`. -/
def GroupData.add_service (gd : GroupData) (eid : Nat) : GroupData :=
  { gd with services := gd.services ++ [eid] }

/-- The allocation state shared by all nodes: the next fresh object identity
and the heap of allocated `CallbackGroup` objects. -/
structure World where
  nextId : Nat
  heap : List (Nat × GroupData)
deriving Repr

/-- Dereference a group identity (first matching heap entry). -/
def heapFind : List (Nat × GroupData) → Nat → Option GroupData
  | [], _ => none
  | kv :: rest, g => if kv.1 = g then some kv.2 else heapFind rest g

/-- In-place mutation of the group object `g` through its shared pointer. -/
def updateHeap (h : List (Nat × GroupData)) (g : Nat) (f : GroupData → GroupData) :
    List (Nat × GroupData) :=
  h.map (fun kv => if kv.1 = g then (kv.1, f kv.2) else kv)

/-- The declared type of the group at identity `g`, if allocated. -/
def groupTypeAt (h : List (Nat × GroupData)) (g : Nat) : Option CallbackGroupType :=
  (heapFind h g).map GroupData.group_type

/-- `rclcpp::node::Node`: name, middleware handle (external, not modelled),
the ordered weakly-held group collection, the strongly-held default group,
the four entity counters and the parameter store.  The C++ constructor's
member-initializer list sets `number_of_subscriptions_`, `number_of_timers_`
and `number_of_services_` to 0 and omits `number_of_clients_`. -/
structure Node where
  name_ : String
  callback_groups_ : List Nat
  default_callback_group_ : Nat
  number_of_subscriptions_ : Nat
  number_of_timers_ : Nat
  number_of_services_ : Nat
  number_of_clients_ : Nat
  parameters_ : Map
deriving DecidableEq, Repr

/-- `Node::create_callback_group(group_type)`: allocate a fresh group object
of the given type, push a (weak) reference into `callback_groups_`, and return
the new object's identity (the strong handle given to the caller). -/
def create_callback_group (w : World) (n : Node)
    (group_type : CallbackGroupType) : World × Node × Nat :=
  let gid := w.nextId
  (⟨w.nextId + 1, w.heap ++ [(gid, ⟨group_type, [], [], [], []⟩)]⟩,
   { n with callback_groups_ := n.callback_groups_ ++ [gid] }, gid)

/-- `Node::Node(node_name, context)`: create the middleware node handle
(external), zero-initialize the subscription, timer and service counters, and
create the default callback group as `MutuallyExclusive`.  `number_of_clients_`
is absent from the member-initializer list, so its initial value is
indeterminate; it is modelled by the free parameter `uninit_clients`. -/
def Node.mk_node (w : World) (node_name : String) (uninit_clients : Nat) :
    World × Node :=
  let n0 : Node := ⟨node_name, [], 0, 0, 0, 0, uninit_clients, []⟩
  let r := create_callback_group w n0 CallbackGroupType.MutuallyExclusive
  (r.1, { r.2.1 with default_callback_group_ := r.2.2 })

/-- `Node::group_in_node`: walk `callback_groups_`, lock each weak reference
(dead references yield no object and are skipped), and flag a match when the
locked object is identical to the candidate. -/
def group_in_node (n : Node) (live : Nat → Bool) (group : Nat) : Bool :=
  n.callback_groups_.foldl
    (fun group_belongs_to_this_node weak_group =>
      if live weak_group && weak_group == group then true
      else group_belongs_to_this_node) false

/-- The error taxonomy of the entity binder (`throw std::runtime_error("…group
not in node.")` in the source; named `GroupNotOwned` by the design). -/
inductive NodeError where
  | GroupNotOwned
deriving DecidableEq, Repr

/-- `Node::create_publisher`: creates the middleware publisher handle and the
wrapper (both external to node state); no group binding and no counter
update. -/
def create_publisher (w : World) (n : Node) (topic_name : String)
    (queue_size : Nat) : World × Node :=
  (w, n)

/-- `Node::create_subscription`: middleware handle and wrapper creation are
external (the new entity is denoted `eid`); with a target group, validate it
with `group_in_node` and throw `GroupNotOwned` on failure, else bind the
entity to the target or default group and increment the subscription
counter. -/
def create_subscription (w : World) (n : Node) (live : Nat → Bool) (eid : Nat)
    (group : Option Nat) : Except NodeError (World × Node) :=
  match group with
  | some g =>
    if group_in_node n live g then
      Except.ok
        (⟨w.nextId, updateHeap w.heap g (fun gd => gd.add_subscription eid)⟩,
         { n with number_of_subscriptions_ := n.number_of_subscriptions_ + 1 })
    else Except.error NodeError.GroupNotOwned
  | none =>
    Except.ok
      (⟨w.nextId,
        updateHeap w.heap n.default_callback_group_
          (fun gd => gd.add_subscription eid)⟩,
       { n with number_of_subscriptions_ := n.number_of_subscriptions_ + 1 })

/-- `Node::create_wall_timer(period, callback, group)`: the timer object is
created externally (denoted `eid`; `period` is its nanosecond period), then
bound exactly like a subscription, incrementing the timer counter. -/
def create_wall_timer (w : World) (n : Node) (live : Nat → Bool) (period : Int)
    (eid : Nat) (group : Option Nat) : Except NodeError (World × Node) :=
  match group with
  | some g =>
    if group_in_node n live g then
      Except.ok
        (⟨w.nextId, updateHeap w.heap g (fun gd => gd.add_timer eid)⟩,
         { n with number_of_timers_ := n.number_of_timers_ + 1 })
    else Except.error NodeError.GroupNotOwned
  | none =>
    Except.ok
      (⟨w.nextId,
        updateHeap w.heap n.default_callback_group_
          (fun gd => gd.add_timer eid)⟩,
       { n with number_of_timers_ := n.number_of_timers_ + 1 })

/-- `Node::create_client`: like `create_subscription`, incrementing
`number_of_clients_`. -/
def create_client (w : World) (n : Node) (live : Nat → Bool) (eid : Nat)
    (group : Option Nat) : Except NodeError (World × Node) :=
  match group with
  | some g =>
    if group_in_node n live g then
      Except.ok
        (⟨w.nextId, updateHeap w.heap g (fun gd => gd.add_client eid)⟩,
         { n with number_of_clients_ := n.number_of_clients_ + 1 })
    else Except.error NodeError.GroupNotOwned
  | none =>
    Except.ok
      (⟨w.nextId,
        updateHeap w.heap n.default_callback_group_
          (fun gd => gd.add_client eid)⟩,
       { n with number_of_clients_ := n.number_of_clients_ + 1 })

/-- `Node::create_service`: like `create_subscription`, incrementing
`number_of_services_`. -/
def create_service (w : World) (n : Node) (live : Nat → Bool) (eid : Nat)
    (group : Option Nat) : Except NodeError (World × Node) :=
  match group with
  | some g =>
    if group_in_node n live g then
      Except.ok
        (⟨w.nextId, updateHeap w.heap g (fun gd => gd.add_service eid)⟩,
         { n with number_of_services_ := n.number_of_services_ + 1 })
    else Except.error NodeError.GroupNotOwned
  | none =>
    Except.ok
      (⟨w.nextId,
        updateHeap w.heap n.default_callback_group_
          (fun gd => gd.add_service eid)⟩,
       { n with number_of_services_ := n.number_of_services_ + 1 })

/-- One externally observable node operation (the liveness environment for
weak-reference locking travels with the operation). -/
inductive Op where
  | opCreateCallbackGroup (group_type : CallbackGroupType)
  | opCreatePublisher (topic_name : String) (queue_size : Nat)
  | opCreateSubscription (live : Nat → Bool) (eid : Nat) (group : Option Nat)
  | opCreateWallTimer (live : Nat → Bool) (period : Int) (eid : Nat)
      (group : Option Nat)
  | opCreateClient (live : Nat → Bool) (eid : Nat) (group : Option Nat)
  | opCreateService (live : Nat → Bool) (eid : Nat) (group : Option Nat)
  | opSetParameters (ps : List ParameterVariant)
  | opSetParametersAtomically (ps : List ParameterVariant)

/-- Apply one operation to the world/node state; a thrown `GroupNotOwned`
propagates to the caller before any mutation, leaving the state unchanged. -/
def step (s : World × Node) (op : Op) : World × Node :=
  match op with
  | .opCreateCallbackGroup t =>
    let r := create_callback_group s.1 s.2 t
    (r.1, r.2.1)
  | .opCreatePublisher t q => create_publisher s.1 s.2 t q
  | .opCreateSubscription live eid g =>
    match create_subscription s.1 s.2 live eid g with
    | .ok r => r
    | .error _ => s
  | .opCreateWallTimer live period eid g =>
    match create_wall_timer s.1 s.2 live period eid g with
    | .ok r => r
    | .error _ => s
  | .opCreateClient live eid g =>
    match create_client s.1 s.2 live eid g with
    | .ok r => r
    | .error _ => s
  | .opCreateService live eid g =>
    match create_service s.1 s.2 live eid g with
    | .ok r => r
    | .error _ => s
  | .opSetParameters ps =>
    (s.1, { s.2 with parameters_ := (set_parameters s.2.parameters_ ps).1 })
  | .opSetParametersAtomically ps =>
    (s.1,
     { s.2 with parameters_ := (set_parameters_atomically s.2.parameters_ ps).1 })

/-- Run a sequence of operations. -/
def runSteps (s : World × Node) (ops : List Op) : World × Node :=
  ops.foldl step s

/-- The last batch entry for a key (this is the binding `set_parameters`
leaves behind for that key). -/
def lastValue : List ParameterVariant → String → Option ParameterVariant
  | [], _ => none
  | p :: rest, k =>
    match lastValue rest k with
    | some v => some v
    | none => if p.name = k then some p else none

/-- The stored keys {"a.b": 1, "a.b.c": 2, "a.x": 3} of the specification's
`list_parameters` example, entered through `set_parameters`. -/
def exampleStore : Map :=
  (set_parameters []
    [⟨"a.b", .intVal 1⟩, ⟨"a.b.c", .intVal 2⟩, ⟨"a.x", .intVal 3⟩]).1

/-- A freshly constructed node in an empty world (used to instantiate the
universally quantified theorems at a concrete state). -/
def exampleWorldNode : World × Node := Node.mk_node ⟨0, []⟩ "example_node" 0

/-- The standing invariant of claim C9: the default callback group is a
member of the node's group collection, and the allocated object it denotes
is of type `MutuallyExclusive`. -/
def DefaultGroupInv (s : World × Node) : Prop :=
  s.2.default_callback_group_ ∈ s.2.callback_groups_ ∧
  groupTypeAt s.1.heap s.2.default_callback_group_ =
    some CallbackGroupType.MutuallyExclusive

/-! ### Laws of the key order -/

theorem charListLt_irrefl (l : List Char) : charListLt l l = false := by
  induction l with
  | nil => rfl
  | cons a as ih => simp [charListLt, ih]

theorem charListLt_trans {a b c : List Char} (hab : charListLt a b = true)
    (hbc : charListLt b c = true) : charListLt a c = true := by
  induction a generalizing b c with
  | nil =>
    cases c with
    | nil =>
      cases b <;> simp [charListLt] at hab hbc
    | cons z zs => simp [charListLt]
  | cons x xs ih =>
    cases b with
    | nil => simp [charListLt] at hab
    | cons y ys =>
      cases c with
      | nil => simp [charListLt] at hbc
      | cons z zs =>
        simp only [charListLt] at hab hbc ⊢
        by_cases h1 : x.toNat < y.toNat
        · by_cases h2 : y.toNat < z.toNat
          · simp [Nat.lt_trans h1 h2]
          · by_cases h3 : z.toNat < y.toNat
            · simp [h2, h3] at hbc
            · have hxz : x.toNat < z.toNat := by omega
              simp [hxz]
        · by_cases h3 : y.toNat < x.toNat
          · simp [h1, h3] at hab
          · simp only [if_neg h1, if_neg h3] at hab
            by_cases h2 : y.toNat < z.toNat
            · have hxz : x.toNat < z.toNat := by omega
              simp [hxz]
            · by_cases h4 : z.toNat < y.toNat
              · simp [h2, h4] at hbc
              · simp only [if_neg h2, if_neg h4] at hbc
                have hxz1 : ¬ x.toNat < z.toNat := by omega
                have hxz2 : ¬ z.toNat < x.toNat := by omega
                simp only [if_neg hxz1, if_neg hxz2]
                exact ih hab hbc

theorem charListLt_conn : ∀ {a b : List Char}, charListLt a b = false →
    charListLt b a = false → a = b := by
  intro a
  induction a with
  | nil =>
    intro b hab _
    cases b with
    | nil => rfl
    | cons y ys => simp [charListLt] at hab
  | cons x xs ih =>
    intro b hab hba
    cases b with
    | nil => simp [charListLt] at hba
    | cons y ys =>
      simp only [charListLt] at hab hba
      by_cases h1 : x.toNat < y.toNat
      · simp [h1] at hab
      · by_cases h2 : y.toNat < x.toNat
        · simp [h2] at hba
        · simp only [if_neg h1, if_neg h2] at hab hba
          have hv : x.toNat = y.toNat := by omega
          have hxy : x = y :=
            Char.ext (UInt32.toNat.inj (show x.val.toNat = y.val.toNat from hv))
          rw [hxy, ih hab hba]

theorem strLt_irrefl (s : String) : strLt s s = false :=
  charListLt_irrefl s.data

theorem strLt_trans {a b c : String} (hab : strLt a b = true)
    (hbc : strLt b c = true) : strLt a c = true :=
  charListLt_trans hab hbc

theorem strLt_conn {a b : String} (hab : strLt a b = false)
    (hba : strLt b a = false) : a = b := by
  cases a with
  | mk da =>
    cases b with
    | mk db => exact congrArg String.mk (charListLt_conn hab hba)

theorem strLt_ne {a b : String} (h : strLt a b = true) : a ≠ b := by
  intro e
  rw [e, strLt_irrefl] at h
  exact Bool.noConfusion h

/-! ### Store lemmas -/

theorem storeFind_assign (m : Map) (k : String) (v : ParameterVariant)
    (k0 : String) : storeFind (storeAssign m k v) k0 =
      if k = k0 then some v else storeFind m k0 := by
  induction m with
  | nil => simp [storeAssign, storeFind]
  | cons kv rest ih =>
    obtain ⟨k', v'⟩ := kv
    by_cases hlt : strLt k k' = true
    · simp [storeAssign, if_pos hlt, storeFind]
    · by_cases heq : k = k'
      · simp only [storeAssign, if_neg hlt, if_pos heq]
        by_cases h0 : k = k0
        · simp [storeFind, h0]
        · have h1 : ¬ (k' = k0) := fun e => h0 (heq.trans e)
          simp [storeFind, h0, h1]
      · simp only [storeAssign, if_neg hlt, if_neg heq]
        by_cases h1 : k' = k0
        · have h0 : ¬ (k = k0) := fun e => heq (e.trans h1.symm)
          simp [storeFind, h1, h0]
        · simp [storeFind, h1, ih]

theorem storeFind_none_of_lt (m : Map) (k : String)
    (h : ∀ kv ∈ m, strLt k kv.1 = true) : storeFind m k = none := by
  induction m with
  | nil => rfl
  | cons kv rest ih =>
    have hk : kv.1 ≠ k :=
      fun e => strLt_ne (h kv (List.mem_cons_self kv rest)) e.symm
    simp only [storeFind, if_neg hk]
    exact ih fun x hx => h x (List.mem_cons_of_mem kv hx)

theorem storeFind_insert (m : Map) (hm : SortedMap m) (k : String)
    (v : ParameterVariant) (k0 : String) :
    storeFind (storeInsert m k v) k0 =
      if k = k0 then some ((storeFind m k).getD v) else storeFind m k0 := by
  induction m with
  | nil => simp [storeInsert, storeFind]
  | cons kv rest ih =>
    obtain ⟨k', v'⟩ := kv
    obtain ⟨hbnd, hrest⟩ := List.pairwise_cons.mp hm
    by_cases hlt : strLt k k' = true
    · have hfind : storeFind ((k', v') :: rest) k = none := by
        refine storeFind_none_of_lt _ _ ?_
        intro x hx
        rcases List.mem_cons.mp hx with h | h
        · rw [h]; exact hlt
        · exact strLt_trans hlt (hbnd x h)
      simp only [storeInsert, if_pos hlt]
      rw [hfind]
      simp [storeFind]
    · by_cases heq : k = k'
      · subst heq
        by_cases h0 : k = k0
        · subst h0
          simp [storeInsert, storeFind, hlt]
        · simp [storeInsert, storeFind, hlt, h0]
      · have hne : ¬ (k' = k) := fun e => heq e.symm
        by_cases h1 : k' = k0
        · subst h1
          simp [storeInsert, storeFind, hlt, heq, fun e => heq e, hne, ih hrest]
        · simp [storeInsert, storeFind, hlt, heq, h1, hne, ih hrest]

theorem mem_storeAssign {m : Map} {k : String} {v : ParameterVariant}
    {x : String × ParameterVariant} (h : x ∈ storeAssign m k v) :
    x = (k, v) ∨ x ∈ m := by
  induction m with
  | nil =>
    simp [storeAssign] at h
    exact Or.inl h
  | cons kv rest ih =>
    obtain ⟨k', v'⟩ := kv
    by_cases hlt : strLt k k' = true
    · simp only [storeAssign, if_pos hlt] at h
      rcases List.mem_cons.mp h with h | h
      · exact Or.inl h
      · exact Or.inr h
    · by_cases heq : k = k'
      · simp only [storeAssign, if_neg hlt, if_pos heq] at h
        rcases List.mem_cons.mp h with h | h
        · exact Or.inl h
        · exact Or.inr (List.mem_cons_of_mem _ h)
      · simp only [storeAssign, if_neg hlt, if_neg heq] at h
        rcases List.mem_cons.mp h with h | h
        · exact Or.inr (h ▸ List.mem_cons_self _ _)
        · rcases ih h with h | h
          · exact Or.inl h
          · exact Or.inr (List.mem_cons_of_mem _ h)

theorem mem_storeInsert {m : Map} {k : String} {v : ParameterVariant}
    {x : String × ParameterVariant} (h : x ∈ storeInsert m k v) :
    x = (k, v) ∨ x ∈ m := by
  induction m with
  | nil =>
    simp [storeInsert] at h
    exact Or.inl h
  | cons kv rest ih =>
    obtain ⟨k', v'⟩ := kv
    by_cases hlt : strLt k k' = true
    · simp only [storeInsert, if_pos hlt] at h
      rcases List.mem_cons.mp h with h | h
      · exact Or.inl h
      · exact Or.inr h
    · by_cases heq : k = k'
      · simp only [storeInsert, if_neg hlt, if_pos heq] at h
        exact Or.inr h
      · simp only [storeInsert, if_neg hlt, if_neg heq] at h
        rcases List.mem_cons.mp h with h | h
        · exact Or.inr (h ▸ List.mem_cons_self _ _)
        · rcases ih h with h | h
          · exact Or.inl h
          · exact Or.inr (List.mem_cons_of_mem _ h)

theorem sorted_storeAssign {m : Map} (hm : SortedMap m) (k : String)
    (v : ParameterVariant) : SortedMap (storeAssign m k v) := by
  induction m with
  | nil => simp [storeAssign, SortedMap]
  | cons kv rest ih =>
    obtain ⟨k', v'⟩ := kv
    obtain ⟨hbnd, hrest⟩ := List.pairwise_cons.mp hm
    by_cases hlt : strLt k k' = true
    · simp only [storeAssign, if_pos hlt]
      refine List.pairwise_cons.mpr ⟨?_, hm⟩
      intro x hx
      rcases List.mem_cons.mp hx with h | h
      · rw [h]; exact hlt
      · exact strLt_trans hlt (hbnd x h)
    · by_cases heq : k = k'
      · subst heq
        simp only [storeAssign, if_neg hlt, if_pos rfl]
        exact List.pairwise_cons.mpr ⟨hbnd, hrest⟩
      · have hgt : strLt k' k = true := by
          cases hlt' : strLt k' k with
          | true => rfl
          | false =>
            exact absurd (strLt_conn (Bool.not_eq_true _ ▸ hlt : strLt k k' = false)
              hlt') heq
        simp only [storeAssign, if_neg hlt, if_neg heq]
        refine List.pairwise_cons.mpr ⟨?_, ih hrest⟩
        intro x hx
        rcases mem_storeAssign hx with h | h
        · rw [h]; exact hgt
        · exact hbnd x h

theorem sorted_storeInsert {m : Map} (hm : SortedMap m) (k : String)
    (v : ParameterVariant) : SortedMap (storeInsert m k v) := by
  induction m with
  | nil => simp [storeInsert, SortedMap]
  | cons kv rest ih =>
    obtain ⟨k', v'⟩ := kv
    obtain ⟨hbnd, hrest⟩ := List.pairwise_cons.mp hm
    by_cases hlt : strLt k k' = true
    · simp only [storeInsert, if_pos hlt]
      refine List.pairwise_cons.mpr ⟨?_, hm⟩
      intro x hx
      rcases List.mem_cons.mp hx with h | h
      · rw [h]; exact hlt
      · exact strLt_trans hlt (hbnd x h)
    · by_cases heq : k = k'
      · simp only [storeInsert, if_neg hlt, if_pos heq]
        exact hm
      · have hgt : strLt k' k = true := by
          cases hlt' : strLt k' k with
          | true => rfl
          | false =>
            exact absurd (strLt_conn (Bool.not_eq_true _ ▸ hlt : strLt k k' = false)
              hlt') heq
        simp only [storeInsert, if_neg hlt, if_neg heq]
        refine List.pairwise_cons.mpr ⟨?_, ih hrest⟩
        intro x hx
        rcases mem_storeInsert hx with h | h
        · rw [h]; exact hgt
        · exact hbnd x h

theorem sorted_applyAssigns {m : Map} (hm : SortedMap m)
    (ps : List ParameterVariant) : SortedMap (applyAssigns m ps) := by
  induction ps generalizing m with
  | nil => exact hm
  | cons p rest ih => exact ih (sorted_storeAssign hm p.name p)

theorem sorted_buildStaging (ps : List ParameterVariant) :
    SortedMap (buildStaging ps) :=
  sorted_applyAssigns List.Pairwise.nil ps

theorem storeFind_applyAssigns (ps : List ParameterVariant) (m : Map)
    (k : String) : storeFind (applyAssigns m ps) k =
      optOr (lastValue ps k) (storeFind m k) := by
  induction ps generalizing m with
  | nil => simp [applyAssigns, lastValue, optOr]
  | cons p rest ih =>
    have hstep : applyAssigns m (p :: rest) = applyAssigns (storeAssign m p.name p) rest := rfl
    rw [hstep, ih, storeFind_assign]
    cases hlast : lastValue rest k with
    | some v => simp [lastValue, optOr, hlast]
    | none =>
      by_cases h0 : p.name = k
      · simp [lastValue, optOr, hlast, h0]
      · simp [lastValue, optOr, hlast, h0]

theorem storeFind_mergeFold (m : Map) (t : Map) (ht : SortedMap t)
    (k : String) :
    storeFind (m.foldl (fun acc kv => storeInsert acc kv.1 kv.2) t) k =
      optOr (storeFind t k) (storeFind m k) := by
  induction m generalizing t with
  | nil => cases h : storeFind t k <;> simp [optOr, storeFind, h]
  | cons kv rest ih =>
    have hstep : (kv :: rest).foldl (fun acc kv => storeInsert acc kv.1 kv.2) t
        = rest.foldl (fun acc kv => storeInsert acc kv.1 kv.2)
            (storeInsert t kv.1 kv.2) := rfl
    rw [hstep, ih (storeInsert t kv.1 kv.2) (sorted_storeInsert ht kv.1 kv.2),
      storeFind_insert t ht]
    by_cases h0 : kv.1 = k
    · cases hf : storeFind t k with
      | some v => simp [optOr, storeFind, h0, hf]
      | none => simp [optOr, storeFind, h0, hf]
    · cases hf : storeFind t k with
      | some v => simp [optOr, storeFind, h0, hf]
      | none => simp [optOr, storeFind, h0, hf]

theorem storeFind_mem : ∀ {m : Map} {k : String} {v : ParameterVariant},
    storeFind m k = some v → (k, v) ∈ m := by
  intro m
  induction m with
  | nil =>
    intro k v h
    exact absurd h (by simp [storeFind])
  | cons kv rest ih =>
    intro k v h
    obtain ⟨k', v'⟩ := kv
    by_cases h0 : k' = k
    · simp only [storeFind, if_pos h0] at h
      have hv := Option.some.inj h
      subst h0
      rw [← hv]
      exact List.mem_cons_self _ _
    · simp only [storeFind, if_neg h0] at h
      exact List.mem_cons_of_mem _ (ih h)

theorem sortedMap_ext : ∀ {s t : Map}, SortedMap s → SortedMap t →
    (∀ k, storeFind s k = storeFind t k) → s = t := by
  intro s
  induction s with
  | nil =>
    intro t _ _ h
    cases t with
    | nil => rfl
    | cons kv rest =>
      have := h kv.1
      simp [storeFind] at this
  | cons kv1 s1 ih =>
    intro t hs ht h
    cases t with
    | nil =>
      have := h kv1.1
      simp [storeFind] at this
    | cons kv2 t1 =>
      obtain ⟨k1, v1⟩ := kv1
      obtain ⟨k2, v2⟩ := kv2
      obtain ⟨hbs, hs1⟩ := List.pairwise_cons.mp hs
      obtain ⟨hbt, ht1⟩ := List.pairwise_cons.mp ht
      have hk1 : storeFind ((k2, v2) :: t1) k1 = some v1 := by
        rw [← h k1]; simp [storeFind]
      have hk2 : storeFind ((k1, v1) :: s1) k2 = some v2 := by
        rw [h k2]; simp [storeFind]
      have hkey : k1 = k2 := by
        by_cases he : k1 = k2
        · exact he
        · have h21 : strLt k2 k1 = true := by
            have hmem := storeFind_mem hk1
            rcases List.mem_cons.mp hmem with hh | hh
            · exact absurd (congrArg Prod.fst hh) he
            · exact hbt _ hh
          have h12 : strLt k1 k2 = true := by
            have hmem := storeFind_mem hk2
            rcases List.mem_cons.mp hmem with hh | hh
            · exact absurd (congrArg Prod.fst hh).symm he
            · exact hbs _ hh
          exact absurd (strLt_trans h12 h21) (by simp [strLt_irrefl])
      have hval : v1 = v2 := by
        have := h k1
        simp only [storeFind, if_pos rfl] at this
        rw [hkey] at this
        simp only [storeFind, if_pos rfl] at this
        exact Option.some.inj this
      have htail : ∀ k, storeFind s1 k = storeFind t1 k := by
        intro k
        by_cases hk : k1 = k
        · have hno1 : storeFind s1 k = none := by
            refine storeFind_none_of_lt _ _ ?_
            intro x hx
            rw [← hk]
            exact hbs x hx
          have hno2 : storeFind t1 k = none := by
            refine storeFind_none_of_lt _ _ ?_
            intro x hx
            rw [← hk, hkey]
            exact hbt x hx
          rw [hno1, hno2]
        · have := h k
          have hk2' : ¬ (k2 = k) := fun e => hk (hkey.trans e)
          simp only [storeFind, if_neg hk, if_neg hk2'] at this
          exact this
      rw [hkey, hval, ih hs1 ht1 htail]

/-- Claim C3 helper: the result of one `set_parameters` call is the map
component of the accumulated fold. -/
theorem set_parameters_fst (m : Map) (ps : List ParameterVariant) :
    (set_parameters m ps).1 = applyAssigns m ps := by
  suffices hgen : ∀ (acc : List SetParametersResult),
      (ps.foldl (fun acc p => (storeAssign acc.1 p.name p, acc.2 ++ [⟨true⟩]))
        (m, acc)).1 = applyAssigns m ps by
    exact hgen []
  induction ps generalizing m with
  | nil => intro acc; rfl
  | cons p rest ih =>
    intro acc
    exact ih (storeAssign m p.name p) (acc ++ [⟨true⟩])

/-! ### Characterisation of `list_parameters` and `get_parameter_types` -/

theorem list_parameters_go (m : Map) (prefixes : List String) (depth : Nat)
    (acc : List ListParametersResult) :
    (m.foldl
      (fun results kv =>
        if prefixes.any (fun pre => matchesDepth kv.1 pre depth) then
          let result0 : ListParametersResult := ⟨[kv.1], []⟩
          let pfx := beforeLastDot kv.1
          let result :=
            if result0.parameter_prefixes.contains pfx then result0
            else { result0 with
                   parameter_prefixes := result0.parameter_prefixes ++ [pfx] }
          results ++ [result]
        else results) acc).flatMap ListParametersResult.parameter_names =
      acc.flatMap ListParametersResult.parameter_names ++
        (m.filter
          (fun kv => prefixes.any (fun pre => matchesDepth kv.1 pre depth))).map
          Prod.fst := by
  induction m generalizing acc with
  | nil => simp
  | cons kv rest ih =>
    by_cases hm : prefixes.any (fun pre => matchesDepth kv.1 pre depth) = true
    · simp only [List.foldl_cons, if_pos hm]
      rw [ih]
      simp [List.filter_cons, hm]
    · simp only [List.foldl_cons, if_neg hm]
      rw [ih]
      simp [List.filter_cons, hm]

theorem list_parameters_names (m : Map) (prefixes : List String) (depth : Nat) :
    (list_parameters m prefixes depth).flatMap ListParametersResult.parameter_names =
      (m.filter
        (fun kv => prefixes.any (fun pre => matchesDepth kv.1 pre depth))).map
        Prod.fst := by
  have h := list_parameters_go m prefixes depth []
  simpa [list_parameters] using h

theorem get_parameter_types_go (m : Map) (names : List String)
    (acc : List ParameterType) :
    (m.foldl
      (fun results kv =>
        if names.any (fun name => name == kv.1) then
          results ++ [kv.2.get_type]
        else
          results ++ [ParameterType.PARAMETER_NOT_SET]) acc) =
      acc ++ m.map
        (fun kv =>
          if names.any (fun name => name == kv.1) then kv.2.get_type
          else ParameterType.PARAMETER_NOT_SET) := by
  induction m generalizing acc with
  | nil => simp
  | cons kv rest ih =>
    by_cases hm : names.any (fun name => name == kv.1) = true
    · simp only [List.foldl_cons, if_pos hm]
      rw [ih]
      simp only [List.map_cons, if_pos hm]
      simp
    · simp only [List.foldl_cons, if_neg hm]
      rw [ih]
      simp only [List.map_cons, if_neg hm]
      simp

/-! ### Claim theorems: the parameter store -/

/-- C1, counterexample: over the stored keys {"a.b": 1, "a.b.c": 2, "a.x": 3},
`list_parameters(["a"], 1)` returns NO matching record at all — in particular
"a.b" is not in any result's name list — because the suffix taken after the
requested name "a" still carries its leading dot (".b" has one dot, and
1 < 1 fails), contradicting the claim's predicted name set {"a.b", "a.x"}. -/
theorem list_parameters_depth_one_counterexample :
    list_parameters exampleStore ["a"] 1 = [] ∧
    ¬ ("a.b" ∈ (list_parameters exampleStore ["a"] 1).flatMap
        ListParametersResult.parameter_names) := by
  constructor
  · decide
  · decide

/-- C1 (amended): a stored key `K` is listed iff `K` begins with some
requested name followed by ".", and the suffix of `K` after the requested
name — which retains the leading separator, hence counts one more dot than
the suffix after `name + "."` — has strictly fewer than `depth` dots.
Consequently `list_parameters(["a"], 1)` over {"a.b", "a.b.c", "a.x"} lists
nothing, and `list_parameters(["a"], 2)` lists exactly "a.b" and "a.x",
excluding "a.b.c". -/
theorem list_parameters_names_spec (m : Map) (prefixes : List String)
    (depth : Nat) :
    (∀ K : String,
      K ∈ (list_parameters m prefixes depth).flatMap
          ListParametersResult.parameter_names ↔
        ∃ v : ParameterVariant, (K, v) ∈ m ∧
          prefixes.any (fun pre => matchesDepth K pre depth) = true) ∧
    (list_parameters exampleStore ["a"] 2).flatMap
        ListParametersResult.parameter_names = ["a.b", "a.x"] ∧
    (list_parameters exampleStore ["a"] 1).flatMap
        ListParametersResult.parameter_names = [] := by
  refine ⟨?_, by decide, by decide⟩
  intro K
  rw [list_parameters_names]
  constructor
  · intro h
    obtain ⟨kv, hkv, hfst⟩ := List.mem_map.mp h
    obtain ⟨hmem, hpred⟩ := List.mem_filter.mp hkv
    refine ⟨kv.2, ?_, ?_⟩
    · have : (K, kv.2) = kv := by
        obtain ⟨a, b⟩ := kv
        simp only at hfst
        rw [hfst]
      rw [this]
      exact hmem
    · rw [← hfst]
      exact hpred
  · intro h
    obtain ⟨v, hmem, hpred⟩ := h
    refine List.mem_map.mpr ⟨(K, v), List.mem_filter.mpr ⟨hmem, hpred⟩, rfl⟩

/-- C2, counterexample: `get_parameter_types(["missing"])` on the empty store
returns the empty list, not the claimed single `PARAMETER_NOT_SET` sentinel,
because the loop iterates the store rather than the request list. -/
theorem get_parameter_types_empty_counterexample :
    get_parameter_types [] ["missing"] = [] ∧
    ([] : List ParameterType) ≠ [ParameterType.PARAMETER_NOT_SET] :=
  ⟨rfl, by decide⟩

/-- C2 (amended): `get_parameter_types` produces exactly one entry per STORED
key, in store iteration order — the stored type when the key is among the
requested names, else the `PARAMETER_NOT_SET` sentinel — so its length tracks
the store, not the request list, and on an empty store it returns the empty
list. -/
theorem get_parameter_types_spec (m : Map) (names : List String) :
    get_parameter_types m names =
      m.map (fun kv =>
        if names.any (fun name => name == kv.1) then kv.2.get_type
        else ParameterType.PARAMETER_NOT_SET) ∧
    (get_parameter_types m names).length = m.length ∧
    get_parameter_types [] ["missing"] = [] := by
  have h := get_parameter_types_go m names []
  have h1 : get_parameter_types m names =
      m.map (fun kv =>
        if names.any (fun name => name == kv.1) then kv.2.get_type
        else ParameterType.PARAMETER_NOT_SET) := by
    simpa [get_parameter_types] using h
  refine ⟨h1, ?_, rfl⟩
  rw [h1]
  simp

/-- C3: `set_parameters_atomically` leaves the store observably equal to the
staging map built from the batch merged with the pre-existing map, the
batch's value winning for every key present in both (the pre-existing
entries are range-inserted without overwriting staged ones), the replacement
being the single functional state update of the locked critical section; the
one returned result is unconditionally successful. -/
theorem set_parameters_atomically_spec (m : Map) (ps : List ParameterVariant) :
    (set_parameters_atomically m ps).2.successful = true ∧
    ∀ k, storeFind (set_parameters_atomically m ps).1 k =
      optOr (storeFind (buildStaging ps) k) (storeFind m k) := by
  refine ⟨rfl, ?_⟩
  intro k
  have hdef : (set_parameters_atomically m ps).1 =
      m.foldl (fun acc kv => storeInsert acc kv.1 kv.2) (buildStaging ps) := rfl
  rw [hdef, storeFind_mergeFold m (buildStaging ps) (sorted_buildStaging ps) k]

/-- C8: repeating an identical `set_parameters` batch leaves the same final
parameter map as applying it once (for any well-formed, i.e. key-sorted,
prior store state). -/
theorem set_parameters_idempotent (m : Map) (ps : List ParameterVariant)
    (hm : SortedMap m) :
    (set_parameters (set_parameters m ps).1 ps).1 = (set_parameters m ps).1 := by
  have h1 : (set_parameters m ps).1 = applyAssigns m ps := set_parameters_fst m ps
  rw [h1, set_parameters_fst]
  apply sortedMap_ext (sorted_applyAssigns (sorted_applyAssigns hm ps) ps)
    (sorted_applyAssigns hm ps)
  intro k
  rw [storeFind_applyAssigns, storeFind_applyAssigns]
  cases hl : lastValue ps k <;> simp [optOr, hl]

/-- C8 witness: the idempotence theorem applied to the empty store and the
batch [("p", 5)]. -/
theorem set_parameters_idempotent_witness :
    (set_parameters (set_parameters [] [⟨"p", ParamValue.intVal 5⟩]).1
      [⟨"p", ParamValue.intVal 5⟩]).1 =
      (set_parameters [] [⟨"p", ParamValue.intVal 5⟩]).1 :=
  set_parameters_idempotent [] [⟨"p", ParamValue.intVal 5⟩] List.Pairwise.nil

/-! ### Heap and registry lemmas -/

theorem heapFind_updateHeap (h : List (Nat × GroupData)) (g : Nat)
    (f : GroupData → GroupData) (x : Nat) :
    heapFind (updateHeap h g f) x =
      if x = g then (heapFind h g).map f else heapFind h x := by
  induction h with
  | nil => simp [updateHeap, heapFind]
  | cons kv rest ih =>
    obtain ⟨a, gd⟩ := kv
    simp only [updateHeap, List.map_cons] at ih ⊢
    by_cases hk : a = g
    · by_cases hax : a = x
      · have hx : x = g := hax.symm.trans hk
        simp [heapFind, hk, hax, hx]
      · have hx : ¬ (x = g) := fun e => hax (hk.trans e.symm)
        have hgx : ¬ (g = x) := fun e => hx e.symm
        simp [heapFind, hk, hax, hx, hgx, ih]
    · by_cases hax : a = x
      · have hx : ¬ (x = g) := fun e => hk (hax.trans e)
        simp [heapFind, hk, hax, hx]
      · simp [heapFind, hk, hax, ih]

theorem heapFind_append (h l : List (Nat × GroupData)) (x : Nat) :
    heapFind (h ++ l) x =
      match heapFind h x with
      | some gd => some gd
      | none => heapFind l x := by
  induction h with
  | nil => simp [heapFind]
  | cons kv rest ih =>
    by_cases hk : kv.1 = x
    · simp [heapFind, hk]
    · simp only [List.cons_append, heapFind, if_neg hk]
      exact ih

theorem group_in_node_go (l : List Nat) (live : Nat → Bool) (g : Nat)
    (acc : Bool) :
    l.foldl
      (fun group_belongs_to_this_node weak_group =>
        if live weak_group && weak_group == g then true
        else group_belongs_to_this_node) acc =
      (acc || l.any (fun x => live x && x == g)) := by
  induction l generalizing acc with
  | nil => simp
  | cons x xs ih =>
    simp only [List.foldl_cons, List.any_cons]
    rw [ih]
    by_cases hx : (live x && x == g) = true
    · simp [hx]
    · simp [hx]

theorem group_in_node_eq_true_iff (n : Node) (live : Nat → Bool) (g : Nat) :
    group_in_node n live g = true ↔
      (g ∈ n.callback_groups_ ∧ live g = true) := by
  unfold group_in_node
  rw [group_in_node_go]
  simp only [Bool.false_or, List.any_eq_true, Bool.and_eq_true, beq_iff_eq]
  constructor
  · rintro ⟨x, hx, hlive, hxg⟩
    exact ⟨hxg ▸ hx, hxg ▸ hlive⟩
  · rintro ⟨hg, hlive⟩
    exact ⟨g, hg, hlive, rfl⟩

theorem groupTypeAt_updateHeap (h : List (Nat × GroupData)) (g x : Nat)
    (f : GroupData → GroupData) (hf : ∀ gd, (f gd).group_type = gd.group_type) :
    groupTypeAt (updateHeap h g f) x = groupTypeAt h x := by
  simp only [groupTypeAt]
  rw [heapFind_updateHeap]
  by_cases hx : x = g
  · subst hx
    rw [if_pos rfl]
    cases heapFind h x <;> simp [hf]
  · rw [if_neg hx]

theorem heapFind_none_of_bounded (h : List (Nat × GroupData)) (x : Nat)
    (hb : ∀ kv ∈ h, kv.1 < x) : heapFind h x = none := by
  induction h with
  | nil => rfl
  | cons kv rest ih =>
    have hne : ¬ (kv.1 = x) := Nat.ne_of_lt (hb kv (List.mem_cons_self _ _))
    simp only [heapFind, if_neg hne]
    exact ih fun y hy => hb y (List.mem_cons_of_mem _ hy)

theorem step_preserves_DefaultGroupInv (s : World × Node) (op : Op)
    (h : DefaultGroupInv s) : DefaultGroupInv (step s op) := by
  obtain ⟨hmem, htype⟩ := h
  cases op with
  | opCreateCallbackGroup t =>
    constructor
    · exact List.mem_append_left _ hmem
    · show groupTypeAt (s.1.heap ++ [(s.1.nextId, ⟨t, [], [], [], []⟩)])
        s.2.default_callback_group_ = some CallbackGroupType.MutuallyExclusive
      simp only [groupTypeAt] at htype ⊢
      rw [heapFind_append]
      obtain ⟨gd, hgd, hty⟩ := Option.map_eq_some'.mp htype
      rw [hgd]
      simpa using hty
  | opCreatePublisher topic_name queue_size => exact ⟨hmem, htype⟩
  | opCreateSubscription live eid g =>
    cases g with
    | none =>
      refine ⟨hmem, ?_⟩
      show groupTypeAt (updateHeap s.1.heap s.2.default_callback_group_
        (fun gd => gd.add_subscription eid)) s.2.default_callback_group_ =
        some CallbackGroupType.MutuallyExclusive
      rw [groupTypeAt_updateHeap s.1.heap s.2.default_callback_group_
        s.2.default_callback_group_ (fun gd => gd.add_subscription eid)
        (fun _ => rfl)]
      exact htype
    | some g' =>
      by_cases hg : group_in_node s.2 live g' = true
      · have hstep : step s (Op.opCreateSubscription live eid (some g')) =
            (⟨s.1.nextId,
              updateHeap s.1.heap g' (fun gd => gd.add_subscription eid)⟩,
             { s.2 with number_of_subscriptions_ :=
                s.2.number_of_subscriptions_ + 1 }) := by
          simp [step, create_subscription, hg]
        rw [hstep]
        refine ⟨hmem, ?_⟩
        show groupTypeAt (updateHeap s.1.heap g'
          (fun gd => gd.add_subscription eid)) s.2.default_callback_group_ =
          some CallbackGroupType.MutuallyExclusive
        rw [groupTypeAt_updateHeap s.1.heap g' s.2.default_callback_group_
          (fun gd => gd.add_subscription eid) (fun _ => rfl)]
        exact htype
      · have hstep : step s (Op.opCreateSubscription live eid (some g')) = s := by
          simp [step, create_subscription, hg]
        rw [hstep]
        exact ⟨hmem, htype⟩
  | opCreateWallTimer live period eid g =>
    cases g with
    | none =>
      refine ⟨hmem, ?_⟩
      show groupTypeAt (updateHeap s.1.heap s.2.default_callback_group_
        (fun gd => gd.add_timer eid)) s.2.default_callback_group_ =
        some CallbackGroupType.MutuallyExclusive
      rw [groupTypeAt_updateHeap s.1.heap s.2.default_callback_group_
        s.2.default_callback_group_ (fun gd => gd.add_timer eid) (fun _ => rfl)]
      exact htype
    | some g' =>
      by_cases hg : group_in_node s.2 live g' = true
      · have hstep : step s (Op.opCreateWallTimer live period eid (some g')) =
            (⟨s.1.nextId,
              updateHeap s.1.heap g' (fun gd => gd.add_timer eid)⟩,
             { s.2 with number_of_timers_ := s.2.number_of_timers_ + 1 }) := by
          simp [step, create_wall_timer, hg]
        rw [hstep]
        refine ⟨hmem, ?_⟩
        show groupTypeAt (updateHeap s.1.heap g'
          (fun gd => gd.add_timer eid)) s.2.default_callback_group_ =
          some CallbackGroupType.MutuallyExclusive
        rw [groupTypeAt_updateHeap s.1.heap g' s.2.default_callback_group_
          (fun gd => gd.add_timer eid) (fun _ => rfl)]
        exact htype
      · have hstep : step s (Op.opCreateWallTimer live period eid (some g')) = s := by
          simp [step, create_wall_timer, hg]
        rw [hstep]
        exact ⟨hmem, htype⟩
  | opCreateClient live eid g =>
    cases g with
    | none =>
      refine ⟨hmem, ?_⟩
      show groupTypeAt (updateHeap s.1.heap s.2.default_callback_group_
        (fun gd => gd.add_client eid)) s.2.default_callback_group_ =
        some CallbackGroupType.MutuallyExclusive
      rw [groupTypeAt_updateHeap s.1.heap s.2.default_callback_group_
        s.2.default_callback_group_ (fun gd => gd.add_client eid) (fun _ => rfl)]
      exact htype
    | some g' =>
      by_cases hg : group_in_node s.2 live g' = true
      · have hstep : step s (Op.opCreateClient live eid (some g')) =
            (⟨s.1.nextId,
              updateHeap s.1.heap g' (fun gd => gd.add_client eid)⟩,
             { s.2 with number_of_clients_ := s.2.number_of_clients_ + 1 }) := by
          simp [step, create_client, hg]
        rw [hstep]
        refine ⟨hmem, ?_⟩
        show groupTypeAt (updateHeap s.1.heap g'
          (fun gd => gd.add_client eid)) s.2.default_callback_group_ =
          some CallbackGroupType.MutuallyExclusive
        rw [groupTypeAt_updateHeap s.1.heap g' s.2.default_callback_group_
          (fun gd => gd.add_client eid) (fun _ => rfl)]
        exact htype
      · have hstep : step s (Op.opCreateClient live eid (some g')) = s := by
          simp [step, create_client, hg]
        rw [hstep]
        exact ⟨hmem, htype⟩
  | opCreateService live eid g =>
    cases g with
    | none =>
      refine ⟨hmem, ?_⟩
      show groupTypeAt (updateHeap s.1.heap s.2.default_callback_group_
        (fun gd => gd.add_service eid)) s.2.default_callback_group_ =
        some CallbackGroupType.MutuallyExclusive
      rw [groupTypeAt_updateHeap s.1.heap s.2.default_callback_group_
        s.2.default_callback_group_ (fun gd => gd.add_service eid) (fun _ => rfl)]
      exact htype
    | some g' =>
      by_cases hg : group_in_node s.2 live g' = true
      · have hstep : step s (Op.opCreateService live eid (some g')) =
            (⟨s.1.nextId,
              updateHeap s.1.heap g' (fun gd => gd.add_service eid)⟩,
             { s.2 with number_of_services_ := s.2.number_of_services_ + 1 }) := by
          simp [step, create_service, hg]
        rw [hstep]
        refine ⟨hmem, ?_⟩
        show groupTypeAt (updateHeap s.1.heap g'
          (fun gd => gd.add_service eid)) s.2.default_callback_group_ =
          some CallbackGroupType.MutuallyExclusive
        rw [groupTypeAt_updateHeap s.1.heap g' s.2.default_callback_group_
          (fun gd => gd.add_service eid) (fun _ => rfl)]
        exact htype
      · have hstep : step s (Op.opCreateService live eid (some g')) = s := by
          simp [step, create_service, hg]
        rw [hstep]
        exact ⟨hmem, htype⟩
  | opSetParameters ps => exact ⟨hmem, htype⟩
  | opSetParametersAtomically ps => exact ⟨hmem, htype⟩

theorem runSteps_preserves_DefaultGroupInv (s : World × Node) (ops : List Op)
    (h : DefaultGroupInv s) : DefaultGroupInv (runSteps s ops) := by
  induction ops generalizing s with
  | nil => exact h
  | cons op rest ih => exact ih _ (step_preserves_DefaultGroupInv s op h)

theorem mk_node_DefaultGroupInv (w : World) (node_name : String)
    (uninit_clients : Nat) (hw : ∀ kv ∈ w.heap, kv.1 < w.nextId) :
    DefaultGroupInv (Node.mk_node w node_name uninit_clients) := by
  constructor
  · show w.nextId ∈ [w.nextId]
    exact List.mem_singleton.mpr rfl
  · show groupTypeAt (w.heap ++
      [(w.nextId, ⟨CallbackGroupType.MutuallyExclusive, [], [], [], []⟩)])
      w.nextId = some CallbackGroupType.MutuallyExclusive
    simp only [groupTypeAt]
    rw [heapFind_append, heapFind_none_of_bounded w.heap w.nextId hw]
    simp [heapFind]

/-! ### Claim theorems: groups, the binder and the node -/

/-- C6: `group_in_node` returns true iff some stored group reference of the
node is live and resolves to an object identical to the candidate — dead
references are skipped, never matched and never an error; hence a group
freshly created via `create_callback_group` on the node is in the node while
a live reference to it is retained, and a group created on another node (in
a world whose allocated identities already bound this node's references) is
never in it. -/
theorem group_in_node_spec :
    (∀ (n : Node) (live : Nat → Bool) (g : Nat),
      group_in_node n live g = true ↔
        (g ∈ n.callback_groups_ ∧ live g = true)) ∧
    (∀ (w : World) (n : Node) (t : CallbackGroupType) (live : Nat → Bool),
      live (create_callback_group w n t).2.2 = true →
        group_in_node (create_callback_group w n t).2.1 live
          (create_callback_group w n t).2.2 = true) ∧
    (∀ (w : World) (n1 n2 : Node) (t : CallbackGroupType) (live : Nat → Bool),
      (∀ x ∈ n1.callback_groups_, x < w.nextId) →
        group_in_node n1 live (create_callback_group w n2 t).2.2 = false) := by
  refine ⟨group_in_node_eq_true_iff, ?_, ?_⟩
  · intro w n t live hlive
    refine (group_in_node_eq_true_iff _ _ _).mpr ⟨?_, hlive⟩
    show w.nextId ∈ n.callback_groups_ ++ [w.nextId]
    exact List.mem_append_right _ (List.mem_singleton.mpr rfl)
  · intro w n1 n2 t live hbound
    cases hb : group_in_node n1 live (create_callback_group w n2 t).2.2 with
    | false => rfl
    | true =>
      obtain ⟨hmem, _⟩ := (group_in_node_eq_true_iff _ _ _).mp hb
      have hlt := hbound _ hmem
      simp [create_callback_group] at hlt

/-- C4: supplying a target group for which `group_in_node` is false makes
each of `create_subscription`, `create_wall_timer`, `create_client` and
`create_service` fail with `GroupNotOwned`, binding the entity into no group,
incrementing no counter, and leaving the node and world state unchanged. -/
theorem create_with_foreign_group_fails (w : World) (n : Node)
    (live : Nat → Bool) (g : Nat) (eid : Nat) (period : Int)
    (h : group_in_node n live g = false) :
    create_subscription w n live eid (some g) =
      Except.error NodeError.GroupNotOwned ∧
    create_wall_timer w n live period eid (some g) =
      Except.error NodeError.GroupNotOwned ∧
    create_client w n live eid (some g) =
      Except.error NodeError.GroupNotOwned ∧
    create_service w n live eid (some g) =
      Except.error NodeError.GroupNotOwned ∧
    step (w, n) (Op.opCreateSubscription live eid (some g)) = (w, n) ∧
    step (w, n) (Op.opCreateWallTimer live period eid (some g)) = (w, n) ∧
    step (w, n) (Op.opCreateClient live eid (some g)) = (w, n) ∧
    step (w, n) (Op.opCreateService live eid (some g)) = (w, n) := by
  refine ⟨?_, ?_, ?_, ?_, ?_, ?_, ?_, ?_⟩ <;>
    simp [create_subscription, create_wall_timer, create_client,
      create_service, step, h]

/-- C4 witness: on a freshly constructed node, requesting group identity 42
(not owned by the node, whose only group is identity 0) fails with
`GroupNotOwned` for subscriptions and clients, and the failed subscription
step leaves the state unchanged. -/
theorem create_with_foreign_group_fails_witness :
    create_subscription exampleWorldNode.1 exampleWorldNode.2 (fun _ => true)
        7 (some 42) = Except.error NodeError.GroupNotOwned ∧
    create_client exampleWorldNode.1 exampleWorldNode.2 (fun _ => true)
        7 (some 42) = Except.error NodeError.GroupNotOwned ∧
    step (exampleWorldNode.1, exampleWorldNode.2)
        (Op.opCreateSubscription (fun _ => true) 7 (some 42)) =
      (exampleWorldNode.1, exampleWorldNode.2) := by
  have h := create_with_foreign_group_fails exampleWorldNode.1
    exampleWorldNode.2 (fun _ => true) 42 7 0 (by decide)
  exact ⟨h.1, h.2.2.1, h.2.2.2.2.1⟩

/-- C5: with no target group supplied, each of `create_subscription`,
`create_wall_timer`, `create_client` and `create_service` succeeds, appends
the new entity to the default callback group's list for its kind, and
increments exactly its own counter, leaving the other three counters
unchanged. -/
theorem create_without_group_binds_default (w : World) (n : Node)
    (live : Nat → Bool) (eid : Nat) (period : Int) :
    (create_subscription w n live eid none =
        Except.ok (step (w, n) (Op.opCreateSubscription live eid none)) ∧
      (heapFind (step (w, n) (Op.opCreateSubscription live eid none)).1.heap
          n.default_callback_group_).map GroupData.subscriptions =
        (heapFind w.heap n.default_callback_group_).map
          (fun gd => gd.subscriptions ++ [eid]) ∧
      (step (w, n)
          (Op.opCreateSubscription live eid none)).2.number_of_subscriptions_ =
        n.number_of_subscriptions_ + 1 ∧
      (step (w, n) (Op.opCreateSubscription live eid none)).2.number_of_timers_ =
        n.number_of_timers_ ∧
      (step (w, n) (Op.opCreateSubscription live eid none)).2.number_of_services_ =
        n.number_of_services_ ∧
      (step (w, n) (Op.opCreateSubscription live eid none)).2.number_of_clients_ =
        n.number_of_clients_) ∧
    (create_wall_timer w n live period eid none =
        Except.ok (step (w, n) (Op.opCreateWallTimer live period eid none)) ∧
      (heapFind (step (w, n) (Op.opCreateWallTimer live period eid none)).1.heap
          n.default_callback_group_).map GroupData.timers =
        (heapFind w.heap n.default_callback_group_).map
          (fun gd => gd.timers ++ [eid]) ∧
      (step (w, n)
          (Op.opCreateWallTimer live period eid none)).2.number_of_timers_ =
        n.number_of_timers_ + 1 ∧
      (step (w, n)
          (Op.opCreateWallTimer live period eid none)).2.number_of_subscriptions_ =
        n.number_of_subscriptions_ ∧
      (step (w, n)
          (Op.opCreateWallTimer live period eid none)).2.number_of_services_ =
        n.number_of_services_ ∧
      (step (w, n)
          (Op.opCreateWallTimer live period eid none)).2.number_of_clients_ =
        n.number_of_clients_) ∧
    (create_client w n live eid none =
        Except.ok (step (w, n) (Op.opCreateClient live eid none)) ∧
      (heapFind (step (w, n) (Op.opCreateClient live eid none)).1.heap
          n.default_callback_group_).map GroupData.clients =
        (heapFind w.heap n.default_callback_group_).map
          (fun gd => gd.clients ++ [eid]) ∧
      (step (w, n) (Op.opCreateClient live eid none)).2.number_of_clients_ =
        n.number_of_clients_ + 1 ∧
      (step (w, n) (Op.opCreateClient live eid none)).2.number_of_subscriptions_ =
        n.number_of_subscriptions_ ∧
      (step (w, n) (Op.opCreateClient live eid none)).2.number_of_timers_ =
        n.number_of_timers_ ∧
      (step (w, n) (Op.opCreateClient live eid none)).2.number_of_services_ =
        n.number_of_services_) ∧
    (create_service w n live eid none =
        Except.ok (step (w, n) (Op.opCreateService live eid none)) ∧
      (heapFind (step (w, n) (Op.opCreateService live eid none)).1.heap
          n.default_callback_group_).map GroupData.services =
        (heapFind w.heap n.default_callback_group_).map
          (fun gd => gd.services ++ [eid]) ∧
      (step (w, n) (Op.opCreateService live eid none)).2.number_of_services_ =
        n.number_of_services_ + 1 ∧
      (step (w, n) (Op.opCreateService live eid none)).2.number_of_subscriptions_ =
        n.number_of_subscriptions_ ∧
      (step (w, n) (Op.opCreateService live eid none)).2.number_of_timers_ =
        n.number_of_timers_ ∧
      (step (w, n) (Op.opCreateService live eid none)).2.number_of_clients_ =
        n.number_of_clients_) := by
  refine ⟨⟨rfl, ?_, rfl, rfl, rfl, rfl⟩, ⟨rfl, ?_, rfl, rfl, rfl, rfl⟩,
    ⟨rfl, ?_, rfl, rfl, rfl, rfl⟩, ⟨rfl, ?_, rfl, rfl, rfl, rfl⟩⟩
  · show (heapFind (updateHeap w.heap n.default_callback_group_
        (fun gd => gd.add_subscription eid)) n.default_callback_group_).map
        GroupData.subscriptions = _
    rw [heapFind_updateHeap]
    rw [if_pos rfl]
    cases heapFind w.heap n.default_callback_group_ <;>
      simp [GroupData.add_subscription]
  · show (heapFind (updateHeap w.heap n.default_callback_group_
        (fun gd => gd.add_timer eid)) n.default_callback_group_).map
        GroupData.timers = _
    rw [heapFind_updateHeap]
    rw [if_pos rfl]
    cases heapFind w.heap n.default_callback_group_ <;>
      simp [GroupData.add_timer]
  · show (heapFind (updateHeap w.heap n.default_callback_group_
        (fun gd => gd.add_client eid)) n.default_callback_group_).map
        GroupData.clients = _
    rw [heapFind_updateHeap]
    rw [if_pos rfl]
    cases heapFind w.heap n.default_callback_group_ <;>
      simp [GroupData.add_client]
  · show (heapFind (updateHeap w.heap n.default_callback_group_
        (fun gd => gd.add_service eid)) n.default_callback_group_).map
        GroupData.services = _
    rw [heapFind_updateHeap]
    rw [if_pos rfl]
    cases heapFind w.heap n.default_callback_group_ <;>
      simp [GroupData.add_service]

/-- C7: `create_publisher` performs no group binding and no counter update:
the world (group heap included) and node are returned unchanged, so all four
entity counters and every callback group are untouched. -/
theorem create_publisher_frame (w : World) (n : Node) (topic_name : String)
    (queue_size : Nat) :
    create_publisher w n topic_name queue_size = (w, n) ∧
    step (w, n) (Op.opCreatePublisher topic_name queue_size) = (w, n) ∧
    (∀ gid, heapFind (create_publisher w n topic_name queue_size).1.heap gid =
      heapFind w.heap gid) ∧
    (create_publisher w n topic_name queue_size).2.number_of_subscriptions_ =
      n.number_of_subscriptions_ ∧
    (create_publisher w n topic_name queue_size).2.number_of_timers_ =
      n.number_of_timers_ ∧
    (create_publisher w n topic_name queue_size).2.number_of_services_ =
      n.number_of_services_ ∧
    (create_publisher w n topic_name queue_size).2.number_of_clients_ =
      n.number_of_clients_ ∧
    (create_publisher w n topic_name queue_size).2.callback_groups_ =
      n.callback_groups_ ∧
    (create_publisher w n topic_name queue_size).2.default_callback_group_ =
      n.default_callback_group_ :=
  ⟨rfl, rfl, fun _ => rfl, rfl, rfl, rfl, rfl, rfl, rfl⟩

/-- C9: starting from construction in any world whose allocated identities
are bounded by its allocation counter, after every sequence of operations the
default callback group — created first, during construction, with type
MutuallyExclusive — is still a member of the node's group collection, the
object it denotes still has type MutuallyExclusive, and `group_in_node`
accepts it under every liveness environment keeping it live (which the node's
own strong reference guarantees). -/
theorem default_group_invariant (w : World) (node_name : String)
    (uninit_clients : Nat) (ops : List Op)
    (hw : ∀ kv ∈ w.heap, kv.1 < w.nextId) :
    (runSteps (Node.mk_node w node_name uninit_clients) ops).2.default_callback_group_
      ∈ (runSteps (Node.mk_node w node_name uninit_clients) ops).2.callback_groups_ ∧
    groupTypeAt (runSteps (Node.mk_node w node_name uninit_clients) ops).1.heap
      (runSteps (Node.mk_node w node_name uninit_clients) ops).2.default_callback_group_
      = some CallbackGroupType.MutuallyExclusive ∧
    ∀ live : Nat → Bool,
      live (runSteps (Node.mk_node w node_name uninit_clients)
        ops).2.default_callback_group_ = true →
      group_in_node (runSteps (Node.mk_node w node_name uninit_clients) ops).2 live
        (runSteps (Node.mk_node w node_name uninit_clients)
          ops).2.default_callback_group_ = true := by
  have hinv := runSteps_preserves_DefaultGroupInv _ ops
    (mk_node_DefaultGroupInv w node_name uninit_clients hw)
  exact ⟨hinv.1, hinv.2, fun live hl =>
    (group_in_node_eq_true_iff _ _ _).mpr ⟨hinv.1, hl⟩⟩

/-- C9 witness: the invariant after construction in the empty world followed
by one group creation and one subscription creation. -/
theorem default_group_invariant_witness :
    (runSteps (Node.mk_node ⟨0, []⟩ "example_node" 0)
      [Op.opCreateCallbackGroup CallbackGroupType.Reentrant,
       Op.opCreateSubscription (fun _ => true) 5 none]).2.default_callback_group_
      ∈ (runSteps (Node.mk_node ⟨0, []⟩ "example_node" 0)
      [Op.opCreateCallbackGroup CallbackGroupType.Reentrant,
       Op.opCreateSubscription (fun _ => true) 5 none]).2.callback_groups_ ∧
    groupTypeAt (runSteps (Node.mk_node ⟨0, []⟩ "example_node" 0)
      [Op.opCreateCallbackGroup CallbackGroupType.Reentrant,
       Op.opCreateSubscription (fun _ => true) 5 none]).1.heap
      ((runSteps (Node.mk_node ⟨0, []⟩ "example_node" 0)
      [Op.opCreateCallbackGroup CallbackGroupType.Reentrant,
       Op.opCreateSubscription (fun _ => true) 5 none]).2.default_callback_group_)
      = some CallbackGroupType.MutuallyExclusive ∧
    ∀ live : Nat → Bool,
      live ((runSteps (Node.mk_node ⟨0, []⟩ "example_node" 0)
        [Op.opCreateCallbackGroup CallbackGroupType.Reentrant,
         Op.opCreateSubscription (fun _ => true) 5 none]).2.default_callback_group_)
        = true →
      group_in_node ((runSteps (Node.mk_node ⟨0, []⟩ "example_node" 0)
        [Op.opCreateCallbackGroup CallbackGroupType.Reentrant,
         Op.opCreateSubscription (fun _ => true) 5 none]).2) live
        ((runSteps (Node.mk_node ⟨0, []⟩ "example_node" 0)
          [Op.opCreateCallbackGroup CallbackGroupType.Reentrant,
           Op.opCreateSubscription (fun _ => true) 5 none]).2.default_callback_group_)
        = true :=
  default_group_invariant ⟨0, []⟩ "example_node" 0
    [Op.opCreateCallbackGroup CallbackGroupType.Reentrant,
     Op.opCreateSubscription (fun _ => true) 5 none] (by simp)

/-- C10: the constructor zero-initializes the subscription, timer and service
counters but omits `number_of_clients_` from the member-initializer list, so
its initial value is whatever residue `uninit_clients` the storage held and
the counter read after the first `create_client` is `uninit_clients + 1`, not
necessarily 1: with residue 7 it reads 8. -/
theorem client_counter_uninitialized (uninit_clients eid : Nat) :
    (Node.mk_node ⟨0, []⟩ "node" uninit_clients).2.number_of_subscriptions_ = 0 ∧
    (Node.mk_node ⟨0, []⟩ "node" uninit_clients).2.number_of_timers_ = 0 ∧
    (Node.mk_node ⟨0, []⟩ "node" uninit_clients).2.number_of_services_ = 0 ∧
    (Node.mk_node ⟨0, []⟩ "node" uninit_clients).2.number_of_clients_ =
      uninit_clients ∧
    (step (Node.mk_node ⟨0, []⟩ "node" uninit_clients)
        (Op.opCreateClient (fun _ => true) eid none)).2.number_of_clients_ =
      uninit_clients + 1 ∧
    (step (Node.mk_node ⟨0, []⟩ "node" 7)
        (Op.opCreateClient (fun _ => true) 0 none)).2.number_of_clients_ = 8 :=
  ⟨rfl, rfl, rfl, rfl, rfl, rfl⟩

end Rclcpp
